import Mathlib

/-!
Verification development for the convivial_decision_flow repository.

The repository ships two browser widgets: the legacy DecisionTree engine and
its successor, the ConvivialDecisionFlow engine.  The definitions below are a
shallow embedding of the state-manipulating and expression-evaluating parts of
that code: JS strings become Lean strings, JS numbers become rationals (the
source only ever produces them through parseFloat on decimal strings), JS
objects used as string maps become association lists, and the DOM is modelled
by the data the code reads from it (the list of step ids, the per-step
question text, the raw value of a filter attribute).
-/

namespace CDFSpec

/-! ## JavaScript value and string primitives -/

/-- Model of a JavaScript primitive value as it flows through the comparison
code: a string, a number (rational; the code only produces numbers via
parseFloat of decimal strings), NaN, null, undefined, or a boolean. -/
inductive JSVal where
  | str (s : String)
  | num (q : Rat)
  | nan
  | nullV
  | undef
  | boolV (b : Bool)
deriving DecidableEq

/-- Accumulate a list of decimal digit characters into a natural number. -/
def digitsToNat (acc : Nat) : List Char → Nat
  | [] => acc
  | c :: rest => digitsToNat (acc * 10 + (c.toNat - 48)) rest

/-- Parse an unsigned decimal literal: digits, optionally followed by a dot
and fractional digits (also accepting a leading dot with digits, or trailing
dot), as both Number() and parseFloat accept.  Returns none when the
character list is not such a literal. -/
def parseUnsignedDec (cs : List Char) : Option Rat :=
  let intPart := cs.takeWhile Char.isDigit
  let rest := cs.dropWhile Char.isDigit
  match rest with
  | [] => if intPart = [] then none else some ((digitsToNat 0 intPart : Nat) : Rat)
  | '.' :: frac =>
    if frac.all Char.isDigit ∧ (intPart ≠ [] ∨ frac ≠ []) then
      some ((digitsToNat 0 intPart : Nat) + (digitsToNat 0 frac : Nat) / ((10 : Rat) ^ frac.length))
    else none
  | _ => none

/-- Model of the JS Number(string) conversion on the decimal fragment the
widgets use: the empty string converts to 0, an optionally signed decimal
literal converts to its value, anything else is NaN (none).  Exponent, hex
and Infinity forms and whitespace trimming are outside the modelled
fragment. -/
def jsStrToNumber (s : String) : Option Rat :=
  match s.data with
  | [] => some 0
  | '-' :: rest => (parseUnsignedDec rest).map (fun q => -q)
  | '+' :: rest => parseUnsignedDec rest
  | cs => parseUnsignedDec cs

/-- Model of JS Number(v) (ToNumber) on the modelled value type; none is
NaN. -/
def jsToNumber : JSVal → Option Rat
  | .str s => jsStrToNumber s
  | .num q => some q
  | .nan => none
  | .nullV => some 0
  | .undef => none
  | .boolV b => some (if b then 1 else 0)

/-- Model of JS parseFloat(v) on the arguments the comparison code reaches it
with (values passing the isNaN gate): a fully numeric string parses as under
Number, the empty string parses to NaN, and null, undefined, NaN and booleans
stringify to non-numeric words and parse to NaN. -/
def jsParseFloatVal : JSVal → Option Rat
  | .str s => if s = "" then none else jsStrToNumber s
  | .num q => some q
  | .nan => none
  | .nullV => none
  | .undef => none
  | .boolV _ => none

/-- The operand coercion at the top of both comparison functions:
if (!isNaN(v)) v = parseFloat(v). -/
def coerceOperand (v : JSVal) : JSVal :=
  if (jsToNumber v).isSome then
    match jsParseFloatVal v with
    | some q => JSVal.num q
    | none => JSVal.nan
  else v

/-- Lexicographic order on character lists by code point, modelling the JS
string relational comparison (identical to code-unit order on the Basic
Multilingual Plane, which covers every string the widgets handle). -/
def charListLt : List Char → List Char → Bool
  | [], [] => false
  | [], _ :: _ => true
  | _ :: _, [] => false
  | a :: as, b :: bs =>
    if a.toNat < b.toNat then true
    else if a.toNat = b.toNat then charListLt as bs
    else false

/-- JS string less-than. -/
def strLt (x y : String) : Bool := charListLt x.data y.data

/-- The JS abstract relational comparison: two strings compare
lexicographically, otherwise both sides convert ToNumber and compare
numerically; none models the undefined result produced when a side is NaN. -/
def jsRelLt (a b : JSVal) : Option Bool :=
  match a, b with
  | .str x, .str y => some (strLt x y)
  | a, b =>
    match jsToNumber a, jsToNumber b with
    | some x, some y => some (decide (x < y))
    | _, _ => none

/-- JS loose equality on the modelled value type: same-type comparisons are
structural, null and undefined equal each other and nothing else, and mixed
comparisons convert both sides ToNumber (false when either side is NaN). -/
def jsLooseEq (a b : JSVal) : Bool :=
  match a, b with
  | .str x, .str y => decide (x = y)
  | .nullV, .nullV => true
  | .undef, .undef => true
  | .nullV, .undef => true
  | .undef, .nullV => true
  | .nullV, _ => false
  | _, .nullV => false
  | .undef, _ => false
  | _, .undef => false
  | a, b =>
    match jsToNumber a, jsToNumber b with
    | some x, some y => decide (x = y)
    | _, _ => false

/-- JS strict equality of a value with the empty string literal. -/
def jsStrictEqEmptyStr : JSVal → Bool
  | .str s => decide (s = "")
  | _ => false

/-! ## The shared comparison primitive

Embeds DecisionTree._compare (src/unnamed/part_000 lines 269-283) and the
successor built-in ConvivialDecisionFlow.functions.filter.compare
(src/convivial_decision_flow.js lines 247-260); the two bodies are
character-identical.  The operator is an Option String because the callers
can pass undefined (a JS switch on undefined takes the default branch). -/

/-- The comparison primitive: coerce each operand with parseFloat when it
passes the isNaN test, then dispatch on the operator; unknown operators (and
an undefined operator) yield false. -/
def jsCompare (variableValue : JSVal) (operator : Option String) (comparator : JSVal) : Bool :=
  let v := coerceOperand variableValue
  let c := coerceOperand comparator
  match operator with
  | some "gt" => (jsRelLt c v).getD false
  | some "gte" =>
    match jsRelLt v c with
    | some r => !r
    | none => false
  | some "lt" => (jsRelLt v c).getD false
  | some "lte" =>
    match jsRelLt c v with
    | some r => !r
    | none => false
  | some "eq" => jsLooseEq v c
  | some "empty" => jsStrictEqEmptyStr v
  | _ => false

/-! ## Filter expression evaluation -/

/-- Split a list of characters on a separator character, keeping empty
groups, exactly as JS String.prototype.split with a one-character separator
does. -/
def splitCharList (c : Char) : List Char → List (List Char)
  | [] => [[]]
  | d :: rest =>
    match splitCharList c rest with
    | [] => [[]]
    | g :: gs => if d = c then [] :: g :: gs else (d :: g) :: gs

/-- JS split of a string on a one-character separator. -/
def splitStr (c : Char) (s : String) : List String :=
  (splitCharList c s.data).map String.mk

/-- JS startsWith for the prefixes used by the filter code. -/
def strStarts (s pre : String) : Bool := pre.data.isPrefixOf s.data

/-- JS slice(n) for the small drops used by the filter code (ASCII only, so
character counts coincide with UTF-16 unit counts). -/
def strDropChars (s : String) (n : Nat) : String := String.mk (s.data.drop n)

/-- Truth of one conjunct under a criterion evaluator: a leading bang
negates the criterion behind it. -/
def critTruth (evalCrit : String → Bool) (criteria : String) : Bool :=
  if strStarts criteria "!" then !(evalCrit (strDropChars criteria 1)) else evalCrit criteria

/-- The whole-element filter expression evaluator, embedding both
DecisionTree._filterElement (src/unnamed/part_000 lines 246-257) and the
successor built-in filter.process (src/convivial_decision_flow.js lines
290-301); the two bodies are identical up to the criterion evaluator they
delegate to, which is the evalCrit parameter here.  The attribute value is
none when getAttribute returned null; the JS falsiness test
(if (!filters) return true) also short-circuits on the empty string. -/
def filterProcess (evalCrit : String → Bool) (attrValue : Option String) : Bool :=
  match attrValue with
  | none => true
  | some filters =>
    if filters = "" then true
    else
      (splitStr ',' filters).any fun alt =>
        (splitStr '+' alt).all fun criteria => critTruth evalCrit criteria

/-- Modelled from the spec words (for the refinement comparison of claim C1):
for an element carrying the filter attribute, split the raw value on the
comma into alternatives and each alternative on the plus sign into conjuncts,
a conjunct prefixed with a bang being negated; the expression is true iff at
least one alternative has every conjunct true; an absent attribute is a
pass-through.  This definition follows the claim text, not the source. -/
def filterProcessSpec (evalCrit : String → Bool) (attrValue : Option String) : Bool :=
  match attrValue with
  | none => true
  | some filters =>
    (splitStr ',' filters).any fun alt =>
      (splitStr '+' alt).all fun criteria => critTruth evalCrit criteria

/-- The legacy criterion evaluator DecisionTree._evaluateCriteria
(src/unnamed/part_000 lines 259-267): a var_ criterion destructures the rest
into variable, operation and value (missing pieces are undefined) and
compares the stored variable (localStorage.getItem yields null when the key
is missing); a visited_ criterion is a plain history membership test; any
other prefix is false. -/
def evaluateCriteria (vars : String → Option String) (history : List String) (criteria : String) : Bool :=
  if strStarts criteria "var_" then
    let parts := splitStr '_' (strDropChars criteria 4)
    jsCompare
      (match vars (parts.headD "") with
       | some s => JSVal.str s
       | none => JSVal.nullV)
      parts[1]?
      (match parts[2]? with
       | some s => JSVal.str s
       | none => JSVal.undef)
  else if strStarts criteria "visited_" then
    decide (strDropChars criteria 8 ∈ history)
  else false

/-- The successor criterion dispatcher filter.evaluate
(src/convivial_decision_flow.js lines 272-288): split the criterion on
underscores, look the head up among the registered filter-type functions
(the customFilter parameter models that registry lookup), otherwise dispatch
var to the vars convenience evaluator and visited to the visited convenience
evaluator (both of which thread their result through the comparison
primitive; vars reads storageData.vars, where a missing key is undefined),
and yield false for any other name. -/
def filterEvaluate (customFilter : String → Option (List String → Bool))
    (vars : String → Option String) (history : List String) (criteria : String) : Bool :=
  let parts := splitStr '_' criteria
  let functionName := parts.headD ""
  let args := parts.tail
  match customFilter functionName with
  | some f => f args
  | none =>
    if functionName = "var" then
      jsCompare
        (match args[0]? with
         | none => JSVal.undef
         | some k =>
           match vars k with
           | some s => JSVal.str s
           | none => JSVal.undef)
        args[1]?
        (match args[2]? with
         | some s => JSVal.str s
         | none => JSVal.undef)
    else if functionName = "visited" then
      jsCompare
        (JSVal.boolV (match args[0]? with
         | none => false
         | some sid => decide (sid ∈ history)))
        args[1]?
        (match args[2]? with
         | some s => JSVal.str s
         | none => JSVal.undef)
    else false

/-! ## Successor engine navigation state

Embeds the storageData record of the ConvivialDecisionFlow engine
(src/convivial_decision_flow.js lines 415-421) together with the state
transitions trackAnswer (lines 656-709), trackBackButton (lines 714-749) and
trackRestartButton (lines 754-796).  Each of those methods ends by calling
_saveStorage, which serializes the in-memory record verbatim, so the
persisted record after each transition is exactly the state these functions
return. -/

/-- Association-list lookup modelling reading a key of a JS object used as a
string map. -/
def getKey (m : List (String × String)) (k : String) : Option String :=
  (m.find? fun p => p.1 = k).map (fun p => p.2)

/-- Association-list update modelling assigning a key of a JS object used as
a string map. -/
def setKey : List (String × String) → String → String → List (String × String)
  | [], k, v => [(k, v)]
  | e :: rest, k, v => if e.1 = k then (k, v) :: rest else e :: setKey rest k v

/-- The in-memory (and, after each save, persisted) record of one successor
flow instance: the configured first step, the active step id, the visited
history, the captured form variables, and the per-step captured answer
texts. -/
structure CDFState where
  first_step : String
  active : String
  history : List String
  vars : List (String × String)
  answers : List (String × String)
deriving DecidableEq

/-- The freshly initialized record (src/convivial_decision_flow.js lines
415-421): active and history are the configured first step, vars is
empty. -/
def initStorage (first : String) : CDFState :=
  { first_step := first, active := first, history := [first], vars := [], answers := [] }

/-- Result of a forward transition: the updated record, plus whether the
show call found the next step element in the DOM (show returns false and
does nothing when its selector matches nothing; trackAnswer ignores that
result and proceeds). -/
structure TrackResult where
  state : CDFState
  shownNext : Bool
deriving DecidableEq

/-- trackAnswer (src/convivial_decision_flow.js lines 656-709): record the
selected answer text (when an answer carries the selection marker) against
the currently active step, hide the active step, show the next step (a no-op
returning false when that element does not exist — no abort), make the next
step active, append it to history unless it is already present anywhere in
history, and save.  The dom parameter is the list of step element ids
present in the container; selectedAnswerText is the text of the answer
carrying data-selected, when one exists. -/
def trackAnswer (dom : List String) (selectedAnswerText : Option String)
    (nextStep : String) (s : CDFState) : TrackResult :=
  let answers :=
    match selectedAnswerText with
    | some t => setKey s.answers s.active t
    | none => s.answers
  let history := if nextStep ∈ s.history then s.history else s.history ++ [nextStep]
  { state := { s with active := nextStep, history := history, answers := answers },
    shownNext := decide (nextStep ∈ dom) }

/-- trackBackButton (src/convivial_decision_flow.js lines 714-749): a no-op
when history has at most one entry; otherwise the second-to-last history
entry becomes active and the last entry is popped. -/
def trackBackButton (s : CDFState) : CDFState :=
  if s.history.length ≤ 1 then s
  else
    { s with active := s.history.getD (s.history.length - 2) s.active,
             history := s.history.dropLast }

/-- trackRestartButton (src/convivial_decision_flow.js lines 754-796): the
configured first step becomes active, history is reset to that single entry
and vars is wiped; the answers map is not touched. -/
def trackRestartButton (s : CDFState) : CDFState :=
  { s with active := s.first_step, history := [s.first_step], vars := [] }

/-- Fold a list of forward transitions (selected answer text and next step
id) over a state, modelling a sequence of trackAnswer calls. -/
def runAnswers (dom : List String) (moves : List (Option String × String)) (s : CDFState) : CDFState :=
  moves.foldl (fun st m => (trackAnswer dom m.1 m.2 st).state) s

/-- The data rendered by the show.history built-in
(src/convivial_decision_flow.js lines 110-137): one pair per history entry —
the question text of that step element (empty when the step has no question
fragment; the question parameter gives the DOM text) and, when the answers
map holds a captured answer for that step, that answer text — rendered only
when more than one step has been visited. -/
def showHistoryRender (question : String → String) (s : CDFState) : List (String × Option String) :=
  if 1 < s.history.length then
    s.history.map fun stepId => (question stepId, getKey s.answers stepId)
  else []

/-! ## Storage loading and validation -/

/-- The shape of a parsed persisted record as _loadStorage sees it: any of
the fields may be missing (undefined) in a record written by an older
schema. -/
structure RawRecord where
  first_step : Option String
  active : Option String
  history : Option (List String)
  vars : Option (List (String × String))
  functions : Option Unit
deriving DecidableEq

/-- _validateHistory (src/convivial_decision_flow.js lines 380-396): when
the stored history is nonempty and the DOM-derived step list is nonempty,
check every history entry against the step list; if any entry is unknown,
reset history to the single configured first step, reset the active pointer,
and save immediately.  Returns the (possibly repaired) record and whether a
save happened. -/
def validateHistory (steps : List String) (first : String) (r : RawRecord) : RawRecord × Bool :=
  let history := r.history.getD []
  if 0 < history.length ∧ 0 < steps.length then
    if history.all (fun v => decide (v ∈ steps)) then (r, false)
    else ({ r with history := some [first], active := some first }, true)
  else (r, false)

/-- _loadStorage (src/convivial_decision_flow.js lines 401-423): a missing
or empty persisted blob (stored = none) yields a fresh record with history
containing the configured first step and empty vars; otherwise the record is
history-validated and its vars and functions fields are defaulted to empty
objects when absent.  Returns the record together with whether a save
happened during validation. -/
def loadStorage (steps : List String) (first : String) (stored : Option RawRecord) : RawRecord × Bool :=
  match stored with
  | some r =>
    let v := validateHistory steps first r
    ({ v.1 with vars := some (v.1.vars.getD []), functions := some () }, v.2)
  | none =>
    ({ first_step := some first, active := some first, history := some [first],
       vars := some [], functions := some () }, false)

/-! ## Storage availability probe and constructor -/

/-- The storage backend handed to the constructor: whether the storage
object is defined at all, and whether the set/remove probe of the sentinel
key throws. -/
structure StorageBackend where
  defined : Bool
  probeThrows : Bool
deriving DecidableEq

/-- _isStorageAvailable (src/convivial_decision_flow.js lines 344-357):
false when the storage object is undefined or the sentinel set/remove round
trip throws. -/
def isStorageAvailable (b : StorageBackend) : Bool :=
  b.defined && !b.probeThrows

/-- The DOM mutations and side effects the constructor and activate can
perform; the storage-unavailable path must perform none of them. -/
inductive DomEffect where
  | hideStep (stepId : String)
  | createFooter
  | createSummary
  | showStep (stepId : String)
  | wireHandlers
  | persist
deriving DecidableEq

/-- The constructor (src/convivial_decision_flow.js lines 12-49) after step
discovery: when the storage probe fails it returns before loading state,
registering functions, activating or wiring handlers (the only code before
the probe is read-only markup validation and the step scan), so no record is
loaded and no DOM effect happens; otherwise it loads storage and activates —
activate (lines 471-536) hides every step, synthesizes the footer and
summary wrappers when absent, shows the active step, wires the back and
restart handlers and saves. -/
def construct (b : StorageBackend) (steps : List String) (stored : Option RawRecord) :
    Option RawRecord × List DomEffect :=
  if isStorageAvailable b then
    let first := steps.headD ""
    let record := (loadStorage steps first stored).1
    (some record,
      (steps.map DomEffect.hideStep) ++
        [DomEffect.createFooter, DomEffect.createSummary,
         DomEffect.showStep (record.active.getD first),
         DomEffect.wireHandlers, DomEffect.persist])
  else (none, [])

/-! ## Custom function registry -/

/-- Behavior of a registered hook body when invoked: it either returns or
throws. -/
inductive Hook where
  | pure
  | throws
deriving DecidableEq

/-- The argument handed to defineFunction: JS typeof distinguishes a genuine
callable from everything else. -/
inductive JSArg where
  | notFn
  | fn (h : Hook)
deriving DecidableEq

/-- The in-memory registry keyed by function type and name. -/
abbrev Registry := List ((String × String) × Hook)

/-- Registry lookup for a (type, name) pair, modelling
this.functions[type] && this.functions[type][name]. -/
def lookupReg (reg : Registry) (ty nm : String) : Option Hook :=
  (List.find? (fun e => e.1.1 = ty ∧ e.1.2 = nm) reg).map (fun e => e.2)

/-- Registry update modelling this.functions[type][name] = fn (creating the
type bucket if new). -/
def setReg : Registry → String → String → Hook → Registry
  | [], ty, nm, h => [((ty, nm), h)]
  | e :: rest, ty, nm, h =>
    if e.1 = (ty, nm) then ((ty, nm), h) :: rest else e :: setReg rest ty nm h

/-- The identifier pattern of the registry, a-zA-Z_$ then 0-9a-zA-Z_$
repeated. -/
def isValidFunctionName (s : String) : Bool :=
  match s.data with
  | [] => false
  | c :: rest =>
    (c.isAlpha || c = '_' || c = '$') &&
      rest.all (fun d => d.isAlphanum || d = '_' || d = '$')

/-- defineFunction (src/convivial_decision_flow.js lines 60-69): reject a
non-callable with an error, otherwise store the function under (type, name);
no name validation happens here. -/
def defineFunction (reg : Registry) (ty nm : String) (arg : JSArg) : Except String Registry :=
  match arg with
  | .notFn => .error "Provided argument is not a function"
  | .fn h => .ok (setReg reg ty nm h)

/-- Observable outcome of executeFunction. -/
inductive ExecOutcome where
  | warnedMissing
  | errorInvalidName
  | hookRaised
  | returned
deriving DecidableEq

/-- executeFunction (src/convivial_decision_flow.js lines 80-98): an
unregistered (type, name) pair warns and returns without effect; a
registered pair whose name fails the identifier pattern raises the
invalid-name error; otherwise the hook is invoked and an exception it throws
is logged and re-raised. -/
def executeFunction (reg : Registry) (ty nm : String) : ExecOutcome :=
  match lookupReg reg ty nm with
  | none => .warnedMissing
  | some h =>
    if !isValidFunctionName nm then .errorInvalidName
    else
      match h with
      | .throws => .hookRaised
      | .pure => .returned

/-! ## Helper lemmas -/

/-- Unfolding of the some-branch of the filter expression evaluator for a
nonempty attribute value. -/
theorem filterProcess_some (e : String → Bool) (s : String) (hs : s ≠ "") :
    filterProcess e (some s) =
      (splitStr ',' s).any fun alt =>
        (splitStr '+' alt).all fun criteria => critTruth e criteria := by
  simp [filterProcess, hs]

/-- The history update performed by a forward transition. -/
theorem trackAnswer_state_history (dom : List String) (sel : Option String) (next : String) (s : CDFState) :
    (trackAnswer dom sel next s).state.history =
      if next ∈ s.history then s.history else s.history ++ [next] := rfl

/-- Any sequence of forward transitions preserves the history invariants:
nonempty, first entry fixed, no duplicates. -/
theorem runAnswers_inv (dom : List String) (first : String) (moves : List (Option String × String)) :
    ∀ s : CDFState, s.history ≠ [] → s.history.head? = some first → s.history.Nodup →
      (runAnswers dom moves s).history ≠ [] ∧
      (runAnswers dom moves s).history.head? = some first ∧
      (runAnswers dom moves s).history.Nodup := by
  induction moves with
  | nil => intro s h1 h2 h3; exact ⟨h1, h2, h3⟩
  | cons m ms ih =>
    intro s h1 h2 h3
    have hstep : runAnswers dom (m :: ms) s = runAnswers dom ms ((trackAnswer dom m.1 m.2 s).state) := rfl
    rw [hstep]
    by_cases hm : m.2 ∈ s.history
    · apply ih <;> rw [trackAnswer_state_history, if_pos hm]
      · exact h1
      · exact h2
      · exact h3
    · apply ih <;> rw [trackAnswer_state_history, if_neg hm]
      · simp
      · rw [List.head?_append_of_ne_nil s.history h1]; exact h2
      · simp [List.nodup_append, h3, hm]

/-- The last entry of a list with its final element removed is the
second-to-last entry of the original list (for lists of length at least
two). -/
theorem getLast?_dropLast (l : List String) (d : String) (h : 1 < l.length) :
    l.dropLast.getLast? = some (l.getD (l.length - 2) d) := by
  induction l with
  | nil => simp at h
  | cons a t ih =>
    cases t with
    | nil => simp at h
    | cons b u =>
      cases u with
      | nil => simp [List.getD]
      | cons c w =>
        have h2 : 1 < (b :: c :: w).length := by simp
        have ih2 := ih h2
        have hdl : (a :: b :: c :: w).dropLast = a :: b :: (c :: w).dropLast := rfl
        have hdl2 : (b :: c :: w).dropLast = b :: (c :: w).dropLast := rfl
        rw [hdl, List.getLast?_cons_cons, ← hdl2, ih2]
        have harith : (a :: b :: c :: w).length - 2 = ((b :: c :: w).length - 2) + 1 := by
          simp
        rw [harith, List.getD_cons_succ]

/-! ## Claim C1 -/

/-- C1 counterexample: for an element carrying the filter attribute with the
empty-string value, both engines short-circuit to true through the JS
falsiness test, while the split semantics stated by the claim (one alternative whose
single conjunct is the empty criterion, which every engine evaluator rejects)
evaluates false.  Shown against both the legacy criterion evaluator and the
successor dispatcher. -/
theorem C1_filter_empty_attribute_counterexample :
    filterProcess (evaluateCriteria (fun _ => none) []) (some "") = true ∧
    filterProcessSpec (evaluateCriteria (fun _ => none) []) (some "") = false ∧
    filterProcess (filterEvaluate (fun _ => none) (fun _ => none) []) (some "") = true ∧
    filterProcessSpec (filterEvaluate (fun _ => none) (fun _ => none) []) (some "") = false := by
  refine ⟨rfl, by decide, rfl, by decide⟩

/-- C1 (amended): for every element carrying a filter attribute and every
criterion evaluator, an absent attribute evaluates true, and a present
NONEMPTY value evaluates true iff at least one comma-separated alternative
has every one of its plus-separated (possibly bang-negated) conjuncts true;
the empty-string value is a further pass-through case the original claim
missed.  This holds for both the legacy _filterElement and the successor
filter.process evaluator, which filterProcess embeds (they are identical up
to the criterion evaluator parameter). -/
theorem C1_filter_expression_amended :
    (∀ (e : String → Bool), filterProcess e none = true) ∧
    (∀ (e : String → Bool) (s : String), s ≠ "" →
      (filterProcess e (some s) = true ↔
        ∃ alt ∈ splitStr ',' s, ∀ crit ∈ splitStr '+' alt, critTruth e crit = true)) := by
  constructor
  · intro e; rfl
  · intro e s hs
    rw [filterProcess_some e s hs]
    simp [List.any_eq_true, List.all_eq_true]

/-- Witness for C1: the amended theorem applied at a concrete nonempty
filter value and an evaluator that accepts everything. -/
theorem C1_filter_expression_amended_witness :
    ("a" : String) ≠ "" ∧
    (filterProcess (fun _ => true) (some "a") = true ↔
      ∃ alt ∈ splitStr ',' "a", ∀ crit ∈ splitStr '+' alt, critTruth (fun _ => true) crit = true) :=
  ⟨by decide, C1_filter_expression_amended.2 (fun _ => true) "a" (by decide)⟩

/-! ## Claim C2 -/

/-- C2 code bug: the claim (and the spec) say the empty operator is true iff
the left operand is exactly the empty string, and in particular that
_compare of the empty string under the empty operator returns true.  The
code can never return true there: the empty string passes the isNaN gate
(JS Number of the empty string is 0), so it is coerced with parseFloat to
NaN before the strict equality with the empty string literal, which then
fails.  This theorem evaluates the embedded comparison primitive: for every
pair of string operands, the empty operator yields false. -/
theorem C2_compare_empty_operator_code_bug (s c : String) :
    jsCompare (JSVal.str s) (some "empty") (JSVal.str c) = false := by
  show jsStrictEqEmptyStr (coerceOperand (JSVal.str s)) = false
  cases hn : jsStrToNumber s with
  | some q =>
    simp only [coerceOperand, jsToNumber, hn, Option.isSome_some, if_true]
    cases hp : jsParseFloatVal (JSVal.str s) <;> simp [jsStrictEqEmptyStr]
  | none =>
    have hs : s ≠ "" := by
      intro h
      rw [h] at hn
      have h0 : jsStrToNumber "" = some 0 := rfl
      rw [h0] at hn
      cases hn
    simp [coerceOperand, jsToNumber, hn, jsStrictEqEmptyStr, hs]

/-! ## Claim C3 -/

/-- C3: for every sequence of forward transitions (trackAnswer calls)
starting from the freshly initialized record, the history list is never
empty, its first entry always equals the configured first step, and (because
a transition to a step id already present anywhere in history does not
append a duplicate) history entries are pairwise distinct. -/
theorem C3_history_invariants (dom : List String) (first : String) (moves : List (Option String × String)) :
    (runAnswers dom moves (initStorage first)).history ≠ [] ∧
    (runAnswers dom moves (initStorage first)).history.head? = some first ∧
    (runAnswers dom moves (initStorage first)).history.Nodup := by
  exact runAnswers_inv dom first moves (initStorage first) (by simp [initStorage])
    (by simp [initStorage]) (by simp [initStorage])

/-! ## Claim C4 -/

/-- C4: starting from the initial state at step-1, transitioning to step-2
then step-3 and invoking the back transition twice leaves the active step at
step-1 with history of length one; the restart transition from any state
resets history to the single configured first step and wipes vars; and the
back transition is a no-op whenever history has exactly one entry. -/
theorem C4_back_restart_round_trip :
    (let dom := ["step-1", "step-2", "step-3"]
     let s3 := trackBackButton (trackBackButton
       ((trackAnswer dom none "step-3" ((trackAnswer dom none "step-2" (initStorage "step-1")).state)).state))
     s3.active = "step-1" ∧ s3.history.length = 1) ∧
    (∀ s : CDFState, (trackRestartButton s).history = [s.first_step] ∧ (trackRestartButton s).vars = []) ∧
    (∀ s : CDFState, s.history.length = 1 → trackBackButton s = s) := by
  refine ⟨by decide, fun s => ⟨rfl, rfl⟩, fun s h => ?_⟩
  simp [trackBackButton, h]

/-- Witness for C4: the back no-op hypothesis discharged at a concrete
single-entry state. -/
theorem C4_back_restart_round_trip_witness :
    (initStorage "a").history.length = 1 ∧ trackBackButton (initStorage "a") = initStorage "a" :=
  ⟨by decide, C4_back_restart_round_trip.2.2 (initStorage "a") (by decide)⟩

/-! ## Claim C5 -/

/-- C5 counterexample: a persisted record whose only history entry is
unknown is NOT reset when the DOM-derived step list is empty — the
validation guard requires a nonempty step list, so the unknown entry
survives, the active pointer is untouched and nothing is persisted, against
the claim that any unknown entry resets the whole history. -/
theorem C5_validate_history_counterexample :
    (let r : RawRecord :=
       { first_step := some "s1", active := some "ghost",
         history := some ["ghost"], vars := some [], functions := some () }
     "ghost" ∉ ([] : List String) ∧
     (loadStorage [] "s1" (some r)).1.history = some ["ghost"] ∧
     (loadStorage [] "s1" (some r)).1.active = some "ghost" ∧
     (loadStorage [] "s1" (some r)).2 = false) := by
  decide

/-- C5 (amended): on load of a persisted record, provided the DOM-derived
step list is nonempty, any history entry unknown to that list causes the
whole history to be reset to the single configured first step with the
active pointer reset alongside, and this reset is persisted immediately; a
missing record yields a fresh record with history containing the first step
and empty vars; and a loaded record always ends up with a vars object
present. -/
theorem C5_load_storage_amended :
    (∀ (steps : List String) (first : String) (r : RawRecord),
      steps ≠ [] → (∃ v ∈ r.history.getD [], v ∉ steps) →
        (loadStorage steps first (some r)).1.history = some [first] ∧
        (loadStorage steps first (some r)).1.active = some first ∧
        (loadStorage steps first (some r)).2 = true) ∧
    (∀ (steps : List String) (first : String),
      (loadStorage steps first none).1.history = some [first] ∧
      (loadStorage steps first none).1.vars = some []) ∧
    (∀ (steps : List String) (first : String) (stored : Option RawRecord),
      ((loadStorage steps first stored).1.vars).isSome = true) := by
  refine ⟨?_, fun steps first => ⟨rfl, rfl⟩, ?_⟩
  · intro steps first r hsteps hex
    obtain ⟨v, hv, hvn⟩ := hex
    have hlen : 0 < (r.history.getD []).length := List.length_pos_of_mem hv
    have hslen : 0 < steps.length := List.length_pos.mpr hsteps
    have hall : ((r.history.getD []).all fun x => decide (x ∈ steps)) = false := by
      rw [List.all_eq_false]
      exact ⟨v, hv, by simpa using hvn⟩
    have hval : validateHistory steps first r =
        ({ r with history := some [first], active := some first }, true) := by
      simp only [validateHistory]
      rw [if_pos ⟨hlen, hslen⟩, if_neg (by simp [hall])]
    simp [loadStorage, hval]
  · intro steps first stored
    cases stored with
    | none => rfl
    | some r => simp [loadStorage]

/-- Witness for C5: the amended reset applied to a concrete record holding
one unknown history entry against a nonempty step list. -/
theorem C5_load_storage_amended_witness :
    (let r : RawRecord :=
       { first_step := some "s1", active := some "ghost",
         history := some ["ghost"], vars := some [], functions := some () }
     (["s1"] : List String) ≠ [] ∧
     (∃ v ∈ r.history.getD [], v ∉ (["s1"] : List String)) ∧
     (loadStorage ["s1"] "s1" (some r)).1.history = some ["s1"] ∧
     (loadStorage ["s1"] "s1" (some r)).1.active = some "s1" ∧
     (loadStorage ["s1"] "s1" (some r)).2 = true) :=
  ⟨by decide, ⟨"ghost", by decide, by decide⟩,
    C5_load_storage_amended.1 ["s1"] "s1"
      { first_step := some "s1", active := some "ghost", history := some ["ghost"],
        vars := some [], functions := some () }
      (by decide) ⟨"ghost", by decide, by decide⟩⟩

/-! ## Claim C6 -/

/-- C6 counterexample: defineFunction happily registers a function under a
name failing the identifier pattern — no invalid-name failure is raised at
definition time, against the claim. -/
theorem C6_define_function_counterexample :
    defineFunction [] "show" "1bad-name" (JSArg.fn Hook.pure) =
      Except.ok [(("show", "1bad-name"), Hook.pure)] ∧
    isValidFunctionName "1bad-name" = false :=
  ⟨rfl, by decide⟩

/-- C6 (amended): defineFunction raises an error when given a non-callable
and otherwise registers the function regardless of its name; the
identifier-pattern check happens at execution time instead — executeFunction
for an unregistered (type, name) pair warns and returns without effect, for
a registered pair whose name fails the pattern it raises the invalid-name
failure, and an exception thrown by a registered hook body is logged and
re-raised, never swallowed. -/
theorem C6_registry_amended :
    (∀ (reg : Registry) (ty nm : String),
      defineFunction reg ty nm JSArg.notFn = Except.error "Provided argument is not a function") ∧
    (∀ (reg : Registry) (ty nm : String) (h : Hook),
      defineFunction reg ty nm (JSArg.fn h) = Except.ok (setReg reg ty nm h)) ∧
    (∀ (reg : Registry) (ty nm : String),
      lookupReg reg ty nm = none → executeFunction reg ty nm = ExecOutcome.warnedMissing) ∧
    (∀ (reg : Registry) (ty nm : String) (h : Hook),
      lookupReg reg ty nm = some h → isValidFunctionName nm = false →
        executeFunction reg ty nm = ExecOutcome.errorInvalidName) ∧
    (∀ (reg : Registry) (ty nm : String),
      lookupReg reg ty nm = some Hook.throws → isValidFunctionName nm = true →
        executeFunction reg ty nm = ExecOutcome.hookRaised) := by
  refine ⟨fun _ _ _ => rfl, fun _ _ _ _ => rfl, ?_, ?_, ?_⟩
  · intro reg ty nm h
    simp [executeFunction, h]
  · intro reg ty nm h hl hv
    simp [executeFunction, hl, hv]
  · intro reg ty nm hl hv
    simp [executeFunction, hl, hv]

/-- Witness for C6: an invalidly named hook registers fine and then raises
the invalid-name failure at execution time. -/
theorem C6_registry_amended_witness :
    lookupReg (setReg [] "show" "1bad-name" Hook.pure) "show" "1bad-name" = some Hook.pure ∧
    isValidFunctionName "1bad-name" = false ∧
    executeFunction (setReg [] "show" "1bad-name" Hook.pure) "show" "1bad-name" =
      ExecOutcome.errorInvalidName :=
  ⟨by decide, by decide,
    C6_registry_amended.2.2.2.1 (setReg [] "show" "1bad-name" Hook.pure) "show" "1bad-name"
      Hook.pure (by decide) (by decide)⟩

/-! ## Claim C7 -/

/-- C7: when the storage-availability probe fails (the storage object is
undefined or the sentinel set/remove throws), the constructor returns early
without activating: no record is loaded and no DOM effect — no step hidden
or shown, no footer or summary synthesized, no handler wired, nothing
persisted — is performed, leaving the container exactly as authored. -/
theorem C7_storage_unavailable_inert (b : StorageBackend) (steps : List String)
    (stored : Option RawRecord) (h : isStorageAvailable b = false) :
    construct b steps stored = (none, []) := by
  simp [construct, h]

/-- Witness for C7: a backend whose probe throws yields an inert
constructor. -/
theorem C7_storage_unavailable_inert_witness :
    isStorageAvailable { defined := true, probeThrows := true } = false ∧
    construct { defined := true, probeThrows := true } ["step-1"] none = (none, []) :=
  ⟨by decide, C7_storage_unavailable_inert _ ["step-1"] none (by decide)⟩

/-! ## Claim C8 -/

/-- C8 counterexample: invoking trackAnswer with a next-step id absent from
the DOM does not abort — the show call fails (returns false), yet the
active pointer moves to the missing id and it is appended to history (and
the record, which _saveStorage then serializes verbatim, changes
accordingly), against the claim that the transition leaves them
unchanged. -/
theorem C8_missing_next_step_counterexample :
    "missing" ∉ (["step-1"] : List String) ∧
    (trackAnswer ["step-1"] none "missing" (initStorage "step-1")).shownNext = false ∧
    (trackAnswer ["step-1"] none "missing" (initStorage "step-1")).state.active = "missing" ∧
    (trackAnswer ["step-1"] none "missing" (initStorage "step-1")).state.history =
      ["step-1", "missing"] := by
  decide

/-- C8 (amended): the successor engine, like the legacy engine, performs no
existence check on the next-step id: when the element is absent from the
DOM the show primitive reports failure without throwing, and the transition
still proceeds — the active pointer becomes the missing id and it is
appended to history when not already present (and the updated record is
saved). -/
theorem C8_missing_next_step_amended (dom : List String) (sel : Option String)
    (next : String) (s : CDFState) (h : next ∉ dom) :
    (trackAnswer dom sel next s).shownNext = false ∧
    (trackAnswer dom sel next s).state.active = next ∧
    (next ∉ s.history → (trackAnswer dom sel next s).state.history = s.history ++ [next]) := by
  refine ⟨by simp [trackAnswer, h], rfl, fun hh => ?_⟩
  rw [trackAnswer_state_history, if_neg hh]

/-- Witness for C8: the amended behavior at a concrete missing next
step. -/
theorem C8_missing_next_step_amended_witness :
    "missing" ∉ (["step-1"] : List String) ∧
    (trackAnswer ["step-1"] none "missing" (initStorage "step-1")).shownNext = false ∧
    (trackAnswer ["step-1"] none "missing" (initStorage "step-1")).state.active = "missing" ∧
    ("missing" ∉ (initStorage "step-1").history →
      (trackAnswer ["step-1"] none "missing" (initStorage "step-1")).state.history =
        (initStorage "step-1").history ++ ["missing"]) :=
  ⟨by decide,
    (C8_missing_next_step_amended ["step-1"] none "missing" (initStorage "step-1") (by decide)).1,
    (C8_missing_next_step_amended ["step-1"] none "missing" (initStorage "step-1") (by decide)).2.1,
    (C8_missing_next_step_amended ["step-1"] none "missing" (initStorage "step-1") (by decide)).2.2⟩

/-! ## Claim C9 -/

/-- C9 counterexample: a forward transition to a step id already present
strictly earlier in history (here back to the first step after visiting a
second) makes the active step that earlier id while the last history entry
stays the previously visited step — exactly the case the claim singles out
fails. -/
theorem C9_active_last_history_counterexample :
    ((trackAnswer ["s1", "s2"] none "s1"
        ((trackAnswer ["s1", "s2"] none "s2" (initStorage "s1")).state)).state.active = "s1") ∧
    ((trackAnswer ["s1", "s2"] none "s1"
        ((trackAnswer ["s1", "s2"] none "s2" (initStorage "s1")).state)).state.history.getLast? =
      some "s2") ∧
    ("s1" : String) ≠ "s2" := by
  decide

/-- C9 (amended): after back (when it acts), after restart, and after a
forward transition whose target is not already in history, the active step
equals the last history entry; but a forward transition to a step id already
present in history leaves history unchanged while the active pointer moves
to that id — so the claimed equality fails precisely in the revisit case the
original claim asserted it for. -/
theorem C9_active_last_history_amended :
    (∀ (dom : List String) (sel : Option String) (next : String) (s : CDFState),
      next ∉ s.history →
        (trackAnswer dom sel next s).state.history.getLast? = some next ∧
        (trackAnswer dom sel next s).state.active = next) ∧
    (∀ (dom : List String) (sel : Option String) (next : String) (s : CDFState),
      next ∈ s.history →
        (trackAnswer dom sel next s).state.history = s.history ∧
        (trackAnswer dom sel next s).state.active = next) ∧
    (∀ s : CDFState, 1 < s.history.length →
      (trackBackButton s).history.getLast? = some (trackBackButton s).active) ∧
    (∀ s : CDFState,
      (trackRestartButton s).history.getLast? = some (trackRestartButton s).active) := by
  refine ⟨?_, ?_, ?_, fun s => rfl⟩
  · intro dom sel next s h
    refine ⟨?_, rfl⟩
    rw [trackAnswer_state_history, if_neg h]
    exact List.getLast?_concat s.history
  · intro dom sel next s h
    exact ⟨by rw [trackAnswer_state_history, if_pos h], rfl⟩
  · intro s h
    have hcond : ¬ s.history.length ≤ 1 := by omega
    simp only [trackBackButton, if_neg hcond]
    exact getLast?_dropLast s.history s.active h

/-- Witness for C9: the amended statements at concrete inputs — a fresh
transition target and a two-entry history for the back case. -/
theorem C9_active_last_history_amended_witness :
    ("s2" ∉ (initStorage "s1").history ∧
      (trackAnswer ["s1", "s2"] none "s2" (initStorage "s1")).state.history.getLast? = some "s2" ∧
      (trackAnswer ["s1", "s2"] none "s2" (initStorage "s1")).state.active = "s2") ∧
    (1 < ((trackAnswer ["s1", "s2"] none "s2" (initStorage "s1")).state).history.length ∧
      (trackBackButton ((trackAnswer ["s1", "s2"] none "s2" (initStorage "s1")).state)).history.getLast? =
        some (trackBackButton ((trackAnswer ["s1", "s2"] none "s2" (initStorage "s1")).state)).active) :=
  ⟨⟨by decide,
      (C9_active_last_history_amended.1 ["s1", "s2"] none "s2" (initStorage "s1") (by decide)).1,
      (C9_active_last_history_amended.1 ["s1", "s2"] none "s2" (initStorage "s1") (by decide)).2⟩,
    ⟨by decide,
      C9_active_last_history_amended.2.2.1
        ((trackAnswer ["s1", "s2"] none "s2" (initStorage "s1")).state) (by decide)⟩⟩

/-! ## Claim C10 -/

/-- C10: the restart transition resets history and vars but leaves the
answers map of the record untouched, so an answer text captured before the
restart survives and, when its step is revisited after the restart (moving
history past a single entry), the show.history rendering includes the
question of that step paired with the preserved answer text. -/
theorem C10_restart_preserves_answers (s : CDFState) (dom : List String)
    (q : String → String) (step ans : String)
    (ha : getKey s.answers step = some ans) (hne : step ≠ s.first_step) :
    getKey (trackRestartButton s).answers step = some ans ∧
    (q step, some ans) ∈
      showHistoryRender q ((trackAnswer dom none step (trackRestartButton s)).state) := by
  constructor
  · exact ha
  · have hhist : ((trackAnswer dom none step (trackRestartButton s)).state).history =
        [s.first_step, step] := by
      rw [trackAnswer_state_history]
      simp [trackRestartButton, hne]
    have hans : ((trackAnswer dom none step (trackRestartButton s)).state).answers = s.answers := rfl
    rw [showHistoryRender, hhist, hans]
    simp [ha]

/-- Witness for C10: a concrete state holding a captured answer for a step
other than the first; restart keeps it and the revisit renders it. -/
theorem C10_restart_preserves_answers_witness :
    (getKey ({ initStorage "s1" with answers := [("x", "A")] } : CDFState).answers "x" = some "A" ∧
      ("x" : String) ≠ ("s1" : String)) ∧
    (getKey (trackRestartButton { initStorage "s1" with answers := [("x", "A")] }).answers "x" =
        some "A" ∧
      ((fun _ => "Q") "x", some "A") ∈
        showHistoryRender (fun _ => "Q")
          ((trackAnswer [] none "x"
            (trackRestartButton { initStorage "s1" with answers := [("x", "A")] })).state)) :=
  ⟨⟨by decide, by decide⟩,
    C10_restart_preserves_answers { initStorage "s1" with answers := [("x", "A")] } [] (fun _ => "Q")
      "x" "A" (by decide) (by decide)⟩

end CDFSpec
